import Mathlib

/-!
Verification development for the Raspberry Pi test-strip analyzer server.

This file gives a shallow embedding of the parts of `src/server.py` and
`src/hsv_analyzer.py` that carry the arbitration, capture-sequencing,
MJPEG frame-extraction, ROI-scaling and pixel-counting logic, and proves
or refutes the specified properties about them.

Modelling conventions:
* Python ints are `Int`; the positive resolution constants are `Nat`.
* Python float arithmetic in the ROI scaler is modelled by exact rational
  arithmetic (`ℚ`) with `int()` as truncation toward zero; the IEEE-double
  computation of the source agrees with this model on all coordinates of
  magnitude up to two million, which covers every ROI either resolution
  can express.
* The two global flags `streaming_active` and `capture_in_progress` form
  `ServerState`.  External effects (the `rpicam-still` subprocess, the
  clock, the filesystem) are oracles: `ok i` is the boolean outcome of
  `analysis_capture` for photo `i`, and `exnAt = some i` models an
  exception or client cancellation hitting the generator at step `i`.
* Generators are functions to the list of values they yield.
-/

/- ----------------------------------------------------------------- -/
/- Data model: ROIs and the two server flags                          -/
/- ----------------------------------------------------------------- -/

/-- A region of interest: the `{x, y, width, height}` dictionaries used
throughout `server.py` and `hsv_analyzer.py`, with integer coordinates. -/
structure ROI where
  x : Int
  y : Int
  width : Int
  height : Int
deriving DecidableEq

/-- `STREAM_WIDTH = 406` (server.py line 32). -/
def STREAM_WIDTH : Nat := 406

/-- `STREAM_HEIGHT = 304` (server.py line 33). -/
def STREAM_HEIGHT : Nat := 304

/-- `CAPTURE_WIDTH = 4056` (server.py line 34). -/
def CAPTURE_WIDTH : Nat := 4056

/-- `CAPTURE_HEIGHT = 3040` (server.py line 35). -/
def CAPTURE_HEIGHT : Nat := 3040

/-- The two global mutable flags of server.py (lines 70-71). -/
structure ServerState where
  streaming_active : Bool
  capture_in_progress : Bool
deriving DecidableEq

/- ----------------------------------------------------------------- -/
/- ROI coordinate scaler (server.py lines 612-632)                    -/
/- ----------------------------------------------------------------- -/

/-- Python `int()` applied to a rational value: truncation toward zero,
computed as T-division of the reduced numerator by the denominator. -/
def pyInt (q : ℚ) : Int := q.num.tdiv (q.den : Int)

/-- `SCALE_FACTOR_X = CAPTURE_WIDTH / STREAM_WIDTH` (server.py line 40),
in the exact-rational model of the float division. -/
def SCALE_FACTOR_X : ℚ := (CAPTURE_WIDTH : ℚ) / (STREAM_WIDTH : ℚ)

/-- `SCALE_FACTOR_Y = CAPTURE_HEIGHT / STREAM_HEIGHT` (server.py line 41). -/
def SCALE_FACTOR_Y : ℚ := (CAPTURE_HEIGHT : ℚ) / (STREAM_HEIGHT : ℚ)

/-- The body of `scale_rois_to_capture_resolution`, generalized over the
two scale factors (the source reads them from the module constants); the
append-in-a-for-loop of the source is a map over the input list. -/
def scale_rois_with (sfx sfy : ℚ) (streaming_rois : List ROI) : List ROI :=
  streaming_rois.map (fun roi =>
    { x := pyInt ((roi.x : ℚ) * sfx)
      y := pyInt ((roi.y : ℚ) * sfy)
      width := pyInt ((roi.width : ℚ) * sfx)
      height := pyInt ((roi.height : ℚ) * sfy) })

/-- `scale_rois_to_capture_resolution` (server.py lines 612-632). -/
def scale_rois_to_capture_resolution (streaming_rois : List ROI) : List ROI :=
  scale_rois_with SCALE_FACTOR_X SCALE_FACTOR_Y streaming_rois

/-- The scaling map as the specification words it: each coordinate is the
exact ratio `v * capture_dim / preview_dim` truncated toward zero
(`Int.tdiv` is truncation toward zero for a positive divisor). -/
def specScaleROI (roi : ROI) : ROI :=
  { x := (roi.x * (CAPTURE_WIDTH : Int)).tdiv (STREAM_WIDTH : Int)
    y := (roi.y * (CAPTURE_HEIGHT : Int)).tdiv (STREAM_HEIGHT : Int)
    width := (roi.width * (CAPTURE_WIDTH : Int)).tdiv (STREAM_WIDTH : Int)
    height := (roi.height * (CAPTURE_HEIGHT : Int)).tdiv (STREAM_HEIGHT : Int) }

/- ----------------------------------------------------------------- -/
/- HSV analyzer pixel counting (hsv_analyzer.py lines 124-146)        -/
/- ----------------------------------------------------------------- -/

/-- Python/numpy list slicing `l[start:stop]` with step 1: negative
indices count from the end and out-of-range bounds are clamped silently. -/
def pySlice (start stop : Int) (l : List α) : List α :=
  let n : Int := l.length
  let s : Int := if start < 0 then max (n + start) 0 else min start n
  let e : Int := if stop < 0 then max (n + stop) 0 else min stop n
  (l.take e.toNat).drop s.toNat

/-- `cv2.countNonZero` on a binary mask: the number of `true` entries. -/
def countNonZero (m : List (List Bool)) : Nat :=
  (m.map (fun row => row.countP (fun b => b))).sum

/-- `HSVAnalyzer._count_pixels_in_roi` (hsv_analyzer.py lines 124-146):
take `mask[y:y+h, x:x+w]` with numpy slice semantics - rows `y..y+h`,
then columns `x..x+w` of each row - and count the nonzero pixels. -/
def count_pixels_in_roi (mask : List (List Bool)) (roi : ROI) : Nat :=
  let roi_mask := (pySlice roi.y (roi.y + roi.height) mask).map
    (fun row => pySlice roi.x (roi.x + roi.width) row)
  countNonZero roi_mask

/-- Whether an ROI lies fully inside a `W × H` image, with nonnegative
extent (the ROI containment invariant of the spec, with nonnegative extent). -/
def roiInBounds (W H : Nat) (roi : ROI) : Bool :=
  decide (0 ≤ roi.x) && decide (0 ≤ roi.y) &&
  decide (0 ≤ roi.width) && decide (0 ≤ roi.height) &&
  decide (roi.x + roi.width ≤ (W : Int)) && decide (roi.y + roi.height ≤ (H : Int))

/-- The ROI clipped to a `W × H` image: the rectangle the numpy slice
actually covers for a nonnegative-coordinate ROI. -/
def clampROI (W H : Nat) (roi : ROI) : ROI :=
  { x := min roi.x (W : Int)
    y := min roi.y (H : Int)
    width := min (roi.x + roi.width) (W : Int) - min roi.x (W : Int)
    height := min (roi.y + roi.height) (H : Int) - min roi.y (H : Int) }

/- ----------------------------------------------------------------- -/
/- MJPEG frame extraction (server.py lines 313-381)                   -/
/- ----------------------------------------------------------------- -/

/-- `len(frame_data) >= 2 and frame_data[-2] == 0xFF and
frame_data[-1] == 0xD9` (server.py line 364). -/
def isEOITail (frame_data : List Nat) : Bool :=
  decide (frame_data.length ≥ 2) && (frame_data.getLast? == some 217)
    && (frame_data.dropLast.getLast? == some 255)

/-- Position of `generate_mjpeg_stream` inside its loop: about to read a
2-byte chunk looking for an SOI marker, or accumulating `frame_data`
byte-by-byte until the EOI marker. -/
inductive ScanMode where
  | scanning : ScanMode
  | inFrame (frame_data : List Nat) : ScanMode
deriving DecidableEq

/-- The frame-producing loop of `generate_mjpeg_stream` (server.py lines
346-372), as the list of JPEG frames it yields.  `stdout` is the byte
stream of the `rpicam-vid` process (its end models process exit / EOF);
`flags i` is the pair `(streaming_active, capture_in_progress)` the
generator observes during iteration `i`, so that route handlers flipping
the globals between iterations are arbitrary schedules.  The
`capture_in_progress` component only triggers a `time.sleep(0.1)` in the
source, which has no effect on the sequence of yielded frames. -/
def generate_mjpeg_stream (flags : Nat → Bool × Bool) :
    List Nat → ScanMode → Nat → List (List Nat)
  | stdout, ScanMode.scanning, i =>
    if (flags i).1 = false then []
    else
      match stdout with
      | b0 :: b1 :: rest =>
        if b0 = 255 ∧ b1 = 216 then
          generate_mjpeg_stream flags rest (ScanMode.inFrame [b0, b1]) i
        else
          generate_mjpeg_stream flags rest ScanMode.scanning (i + 1)
      | _ => []
  | stdout, ScanMode.inFrame frame_data, i =>
    match stdout with
    | [] => []
    | b :: rest =>
      let fd := frame_data ++ [b]
      if isEOITail fd then
        fd :: generate_mjpeg_stream flags rest ScanMode.scanning (i + 1)
      else
        generate_mjpeg_stream flags rest (ScanMode.inFrame fd) i

/-- `p` contains no end-of-image marker when scanned after previous byte
`prev`: no adjacent pair `(0xFF, 0xD9)` occurs in `prev :: p`. -/
def noEOIscan (prev : Nat) : List Nat → Bool
  | [] => true
  | b :: rest => !(prev == 255 && b == 217) && noEOIscan b rest

/- ----------------------------------------------------------------- -/
/- Capture sequencing (server.py lines 428-512 and 515-609)           -/
/- ----------------------------------------------------------------- -/

/-- Python `range(a, b)` over integers with step 1 (empty when `b ≤ a`). -/
def pyRange (a b : Int) : List Int :=
  (List.range (b - a).toNat).map (fun (k : Nat) => a + (k : Int))

/-- The server-sent events of `capture_sequence_stream`, with photo
numbers in place of the formatted message strings and file names. -/
inductive SSEEvent where
  | busyError : SSEEvent
  | starting : SSEEvent
  | preparing : SSEEvent
  | capturing (photo total : Int) : SSEEvent
  | captured (photo total : Int) : SSEEvent
  | complete (photos : List Int) : SSEEvent
  | captureError (photo total : Int) : SSEEvent
  | exceptionError : SSEEvent
deriving DecidableEq

/-- Whether an event is the terminal `"complete"` event. -/
def isCompleteEvent : SSEEvent → Bool
  | SSEEvent.complete _ => true
  | _ => false

/-- The `for i in range(1, num_photos + 1)` loop of the
`capture_sequence_stream` generator (server.py lines 569-592), run over
the list of loop indices.  Returns `(events, photos, attempted, failed,
raised)`: the yielded events, the accumulated photo list, the steps whose
`analysis_capture` was invoked, whether a step failed (early `return`
after the error event), and whether an exception/cancellation interrupted
the loop (`exnAt`). -/
def seqSteps (ok : Int → Bool) (total : Int) (exnAt : Option Int) :
    List Int → List SSEEvent × List Int × List Int × Bool × Bool
  | [] => ([], [], [], false, false)
  | i :: rest =>
    if exnAt = some i then ([], [], [], false, true)
    else if ok i then
      let (evs, ps, att, f, r) := seqSteps ok total exnAt rest
      (SSEEvent.capturing i total :: SSEEvent.captured i total :: evs,
        i :: ps, i :: att, f, r)
    else
      ([SSEEvent.capturing i total, SSEEvent.captureError i total], [], [i], true, false)

/-- The `try/except/finally` part of the `capture_sequence_stream`
generator (server.py lines 532-607): the `"starting"` and `"preparing"`
events, the capture loop, the terminal `"complete"` event on full
success or the terminal error event on an exception, and the `finally`
block that unconditionally resets `capture_in_progress := false` and
`streaming_active := true`. -/
def streamBody (ok : Int → Bool) (num_photos : Int) (exnAt : Option Int) :
    List SSEEvent × ServerState × List Int :=
  match seqSteps ok num_photos exnAt (pyRange 1 (num_photos + 1)) with
  | (evs, photos, _att, failed, raised) =>
    let body := SSEEvent.starting :: SSEEvent.preparing :: evs
    let events :=
      if raised then body ++ [SSEEvent.exceptionError]
      else if failed then body
      else body ++ [SSEEvent.complete photos]
    (events, { streaming_active := true, capture_in_progress := false }, _att)

/-- The `capture_sequence_stream` generator (server.py lines 515-609):
reject when `capture_in_progress` is already set; otherwise run
`streamBody`.  Returns the yielded events, the final flag state, and the
list of steps whose capture was attempted. -/
def capture_sequence_stream (ok : Int → Bool) (num_photos : Int)
    (exnAt : Option Int) (s : ServerState) :
    List SSEEvent × ServerState × List Int :=
  if s.capture_in_progress then ([SSEEvent.busyError], s, [])
  else streamBody ok num_photos exnAt

/-- HTTP outcome of the legacy `/api/capture-sequence` endpoint. -/
inductive LegacyResult where
  | busy409 : LegacyResult
  | error500 (photo : Int) : LegacyResult
  | exn500 : LegacyResult
  | ok200 (photos : List Int) : LegacyResult
deriving DecidableEq

/-- The `for i in range(1, 4)` loop of the legacy `capture_sequence`
endpoint (server.py lines 469-490).  Returns `(photos, attempted,
failedAt, raised)`. -/
def legacySteps (ok : Int → Bool) (exnAt : Option Int) :
    List Int → List Int × List Int × Option Int × Bool
  | [] => ([], [], none, false)
  | i :: rest =>
    if exnAt = some i then ([], [], none, true)
    else if ok i then
      let (ps, att, f, r) := legacySteps ok exnAt rest
      (i :: ps, i :: att, f, r)
    else ([], [i], some i, false)

/-- The `try/except/finally` part of the legacy endpoint (server.py
lines 442-512), with the `finally` block that unconditionally resets the
two flags. -/
def legacyBody (ok : Int → Bool) (exnAt : Option Int) :
    LegacyResult × ServerState × List Int :=
  match legacySteps ok exnAt (pyRange 1 4) with
  | (photos, att, failedAt, raised) =>
    let res :=
      if raised then LegacyResult.exn500
      else
        match failedAt with
        | some i => LegacyResult.error500 i
        | none => LegacyResult.ok200 photos
    (res, { streaming_active := true, capture_in_progress := false }, att)

/-- The legacy `capture_sequence` endpoint (server.py lines 428-512):
409 when `capture_in_progress` is already set, otherwise three captures
through `legacyBody`. -/
def capture_sequence (ok : Int → Bool) (exnAt : Option Int) (s : ServerState) :
    LegacyResult × ServerState × List Int :=
  if s.capture_in_progress then (LegacyResult.busy409, s, [])
  else legacyBody ok exnAt

/- ----------------------------------------------------------------- -/
/- Helper lemmas: truncation of exact rational ratios                 -/
/- ----------------------------------------------------------------- -/

/-- On a nonnegative rational, truncation toward zero is the floor. -/
theorem pyInt_eq_floor_of_nonneg (q : ℚ) (h : 0 ≤ q) : pyInt q = ⌊q⌋ := by
  rw [Rat.floor_def]
  exact Int.tdiv_eq_ediv (Rat.num_nonneg.mpr h) (Int.natCast_nonneg q.den)

/-- Truncation toward zero is an odd function. -/
theorem pyInt_neg (q : ℚ) : pyInt (-q) = -pyInt q := by
  unfold pyInt
  rw [Rat.num_neg_eq_neg_num, Rat.den_neg_eq_den, Int.neg_tdiv]

/-- Python `int()` of an exact integer ratio is T-division. -/
theorem pyInt_intCast_div (a : ℤ) (b : ℕ) :
    pyInt ((a : ℚ) / (b : ℚ)) = a.tdiv (b : ℤ) := by
  rcases le_or_lt 0 a with ha | ha
  · rw [pyInt_eq_floor_of_nonneg _ (by positivity), Rat.floor_intCast_div_natCast,
      Int.tdiv_eq_ediv ha (Int.natCast_nonneg b)]
  · have h1 : ((a : ℚ)) / (b : ℚ) = -((((-a : ℤ)) : ℚ) / (b : ℚ)) := by
      push_cast
      ring
    have h2 : (0 : ℚ) ≤ (((-a : ℤ)) : ℚ) / (b : ℚ) := by
      apply div_nonneg _ (by positivity)
      exact_mod_cast Int.neg_nonneg.mpr ha.le
    rw [h1, pyInt_neg, pyInt_eq_floor_of_nonneg _ h2, Rat.floor_intCast_div_natCast]
    conv_rhs => rw [← neg_neg a, Int.neg_tdiv, Int.tdiv_eq_ediv (by omega) (Int.natCast_nonneg b)]

/-- The source scaler equals the specification formula: every coordinate
is the exact ratio truncated toward zero. -/
theorem scale_rois_eq_spec (l : List ROI) :
    scale_rois_to_capture_resolution l = l.map specScaleROI := by
  unfold scale_rois_to_capture_resolution scale_rois_with specScaleROI
  apply List.map_congr_left
  intro roi _
  have hx : (roi.x : ℚ) * SCALE_FACTOR_X
      = ((roi.x * (CAPTURE_WIDTH : Int) : ℤ) : ℚ) / ((STREAM_WIDTH : ℕ) : ℚ) := by
    unfold SCALE_FACTOR_X
    push_cast
    ring
  have hy : (roi.y : ℚ) * SCALE_FACTOR_Y
      = ((roi.y * (CAPTURE_HEIGHT : Int) : ℤ) : ℚ) / ((STREAM_HEIGHT : ℕ) : ℚ) := by
    unfold SCALE_FACTOR_Y
    push_cast
    ring
  have hw : (roi.width : ℚ) * SCALE_FACTOR_X
      = ((roi.width * (CAPTURE_WIDTH : Int) : ℤ) : ℚ) / ((STREAM_WIDTH : ℕ) : ℚ) := by
    unfold SCALE_FACTOR_X
    push_cast
    ring
  have hh : (roi.height : ℚ) * SCALE_FACTOR_Y
      = ((roi.height * (CAPTURE_HEIGHT : Int) : ℤ) : ℚ) / ((STREAM_HEIGHT : ℕ) : ℚ) := by
    unfold SCALE_FACTOR_Y
    push_cast
    ring
  rw [hx, hy, hw, hh, pyInt_intCast_div, pyInt_intCast_div, pyInt_intCast_div,
    pyInt_intCast_div]

/-- Truncation of an integer cast is the integer itself. -/
theorem pyInt_intCast (x : ℤ) : pyInt ((x : ℚ)) = x := by
  unfold pyInt
  rw [Rat.num_intCast, Rat.den_intCast]
  exact Int.tdiv_one x

/-- C6: for every input list of ROIs the scaler computes the per-axis
factors `capture_dim / preview_dim` and maps each ROI coordinatewise to
the exact product truncated toward zero (`specScaleROI`), and it is
deterministic: identical inputs give identical outputs. -/
theorem C6_scaler_formula_and_deterministic :
    (∀ l : List ROI, scale_rois_to_capture_resolution l = l.map specScaleROI) ∧
    (∀ l₁ l₂ : List ROI, l₁ = l₂ →
      scale_rois_to_capture_resolution l₁ = scale_rois_to_capture_resolution l₂) :=
  ⟨scale_rois_eq_spec, fun _ _ h => h ▸ rfl⟩

/-- Witness for C6 at the default first configured ROI. -/
theorem C6_scaler_witness :
    scale_rois_to_capture_resolution [⟨117, 89, 141, 19⟩]
        = List.map specScaleROI [⟨117, 89, 141, 19⟩] ∧
    scale_rois_to_capture_resolution [⟨117, 89, 141, 19⟩]
        = scale_rois_to_capture_resolution [⟨117, 89, 141, 19⟩] :=
  ⟨C6_scaler_formula_and_deterministic.1 _,
    C6_scaler_formula_and_deterministic.2 _ _ rfl⟩

/-- C7 fails as stated: the ROI `{117, 89, 141, 19}` does not scale to
`{1169, 890, 1410, 190}` (the x-axis factor is about 9.99, so the x and
width values 1169 and 1410 are wrong). -/
theorem C7_counterexample :
    scale_rois_to_capture_resolution [⟨117, 89, 141, 19⟩] ≠ [⟨1169, 890, 1410, 190⟩] := by
  rw [scale_rois_eq_spec]
  decide

/-- C7 amended: with preview 406x304 and capture 4056x3040, the ROI
`{117, 89, 141, 19}` scales to `{1168, 890, 1408, 190}` (truncation of
117 * 4056 / 406 = 1168.85 and 141 * 4056 / 406 = 1408.61). -/
theorem C7_scaled_roi_value :
    scale_rois_to_capture_resolution [⟨117, 89, 141, 19⟩] = [⟨1168, 890, 1408, 190⟩] := by
  rw [scale_rois_eq_spec]
  decide

/-- C8: when the preview resolution equals the capture resolution, both
scale factors are `w/w = 1` and `h/h = 1` and scaling is the identity on
every ROI list. -/
theorem C8_unit_factor_identity (w h : ℤ) (hw : w ≠ 0) (hh : h ≠ 0) (l : List ROI) :
    scale_rois_with ((w : ℚ) / (w : ℚ)) ((h : ℚ) / (h : ℚ)) l = l := by
  have hw1 : ((w : ℚ) / (w : ℚ)) = 1 := div_self (by exact_mod_cast hw)
  have hh1 : ((h : ℚ) / (h : ℚ)) = 1 := div_self (by exact_mod_cast hh)
  rw [hw1, hh1]
  unfold scale_rois_with
  have hpt : ∀ roi ∈ l,
      (ROI.mk (pyInt ((roi.x : ℚ) * 1)) (pyInt ((roi.y : ℚ) * 1))
        (pyInt ((roi.width : ℚ) * 1)) (pyInt ((roi.height : ℚ) * 1))) = roi := by
    intro roi _
    rw [mul_one, mul_one, mul_one, mul_one, pyInt_intCast, pyInt_intCast,
      pyInt_intCast, pyInt_intCast]
  rw [List.map_congr_left hpt]
  exact List.map_id' l

/-- Witness for C8 with equal 406x304 preview and capture resolutions. -/
theorem C8_unit_factor_witness :
    ((406 : ℤ)) ≠ 0 ∧ ((304 : ℤ)) ≠ 0 ∧
    scale_rois_with (((406 : ℤ) : ℚ) / ((406 : ℤ) : ℚ)) (((304 : ℤ) : ℚ) / ((304 : ℤ) : ℚ))
      [⟨117, 89, 141, 19⟩] = [⟨117, 89, 141, 19⟩] :=
  ⟨by decide, by decide,
    C8_unit_factor_identity 406 304 (by decide) (by decide) [⟨117, 89, 141, 19⟩]⟩

/- ----------------------------------------------------------------- -/
/- Helper lemmas: pyRange and the capture loop                        -/
/- ----------------------------------------------------------------- -/

/-- An empty Python range. -/
theorem pyRange_eq_nil (a b : Int) (h : b ≤ a) : pyRange a b = [] := by
  unfold pyRange
  have h0 : (b - a).toNat = 0 := by omega
  rw [h0]
  rfl

/-- Peeling the first element off a nonempty Python range. -/
theorem pyRange_cons (a b : Int) (h : a < b) : pyRange a b = a :: pyRange (a + 1) b := by
  unfold pyRange
  have h1 : (b - a).toNat = (b - (a + 1)).toNat + 1 := by omega
  rw [h1, List.range_succ_eq_map, List.map_cons, List.map_map]
  congr 1
  · simp
  · apply List.map_congr_left
    intro k _
    simp only [Function.comp_apply]
    push_cast
    ring

/-- Membership in a Python range. -/
theorem mem_pyRange {i a b : Int} : i ∈ pyRange a b ↔ a ≤ i ∧ i < b := by
  unfold pyRange
  simp only [List.mem_map, List.mem_range]
  constructor
  · rintro ⟨k, hk, rfl⟩
    omega
  · rintro ⟨h1, h2⟩
    exact ⟨(i - a).toNat, by omega, by omega⟩

/-- Auxiliary induction for splitting a Python range at a midpoint. -/
theorem pyRange_split_aux : ∀ (n : ℕ) (a k b : Int), (k - a).toNat = n → a ≤ k → k ≤ b →
    pyRange a b = pyRange a k ++ pyRange k b := by
  intro n
  induction n with
  | zero =>
    intro a k b hn h1 h2
    have hak : a = k := by omega
    subst hak
    rw [pyRange_eq_nil a a le_rfl]
    rfl
  | succ m ih =>
    intro a k b hn h1 h2
    have hak : a < k := by omega
    rw [pyRange_cons a b (by omega), pyRange_cons a k hak, List.cons_append]
    congr 1
    exact ih (a + 1) k b (by omega) (by omega) h2

/-- Splitting a Python range at a midpoint. -/
theorem pyRange_split (a k b : Int) (h1 : a ≤ k) (h2 : k ≤ b) :
    pyRange a b = pyRange a k ++ pyRange k b :=
  pyRange_split_aux (k - a).toNat a k b rfl h1 h2

/-- The `"capturing"/"captured"` event pairs produced by a run of fully
successful capture steps. -/
def stepEvents (total : Int) : List Int → List SSEEvent
  | [] => []
  | i :: rest => SSEEvent.capturing i total :: SSEEvent.captured i total :: stepEvents total rest

/-- Successful capture steps never produce a `"complete"` event. -/
theorem stepEvents_no_complete (total : Int) (l : List Int) :
    (stepEvents total l).all (fun e => !(isCompleteEvent e)) = true := by
  induction l with
  | nil => rfl
  | cons i rest ih =>
    rw [stepEvents, List.all_cons, List.all_cons, ih]
    rfl

/-- The capture loop on a list of steps that all succeed. -/
theorem seqSteps_all_ok (ok : Int → Bool) (total : Int) (l : List Int)
    (h : ∀ i ∈ l, ok i = true) :
    seqSteps ok total none l = (stepEvents total l, l, l, false, false) := by
  induction l with
  | nil => rfl
  | cons i rest ih =>
    have hi : ok i = true := h i (List.mem_cons_self i rest)
    have hrest : ∀ j ∈ rest, ok j = true := fun j hj => h j (List.mem_cons_of_mem i hj)
    simp [seqSteps, hi, ih hrest, stepEvents]

/-- The capture loop when every step before `k` succeeds and step `k`
fails: the loop emits the success pairs, then the `"capturing"` and
terminal error events for `k`, attempts nothing past `k`, and reports
failure. -/
theorem seqSteps_fails (ok : Int → Bool) (total : Int) (l1 : List Int) (k : Int)
    (l2 : List Int) (h : ∀ i ∈ l1, ok i = true) (hk : ok k = false) :
    seqSteps ok total none (l1 ++ k :: l2)
      = (stepEvents total l1 ++ [SSEEvent.capturing k total, SSEEvent.captureError k total],
         l1, l1 ++ [k], true, false) := by
  induction l1 with
  | nil => simp [seqSteps, hk, stepEvents]
  | cons i rest ih =>
    have hi : ok i = true := h i (List.mem_cons_self i rest)
    have hrest : ∀ j ∈ rest, ok j = true := fun j hj => h j (List.mem_cons_of_mem i hj)
    simp [seqSteps, hi, ih hrest, stepEvents]

/- ----------------------------------------------------------------- -/
/- C1, C2, C3, C10: capture sequencing                                -/
/- ----------------------------------------------------------------- -/

/-- C1: a capture request made while `capture_in_progress` is already
set is rejected synchronously by both endpoints - the streaming endpoint
yields only the terminal busy error event and the legacy endpoint
returns 409 - with no capture attempted and the flag state unchanged. -/
theorem C1_double_begin_rejected (ok : Int → Bool) (n : Int) (exnAt : Option Int)
    (s : ServerState) (h : s.capture_in_progress = true) :
    capture_sequence_stream ok n exnAt s = ([SSEEvent.busyError], s, []) ∧
    capture_sequence ok exnAt s = (LegacyResult.busy409, s, []) := by
  constructor <;> simp [capture_sequence_stream, capture_sequence, h]

/-- Witness for C1: a second request arriving while a capture holds the
device. -/
theorem C1_double_begin_witness :
    capture_sequence_stream (fun _ => true) 3 none ⟨false, true⟩
        = ([SSEEvent.busyError], ⟨false, true⟩, []) ∧
    capture_sequence (fun _ => true) none ⟨false, true⟩
        = (LegacyResult.busy409, ⟨false, true⟩, []) :=
  C1_double_begin_rejected (fun _ => true) 3 none ⟨false, true⟩ rfl

/-- C2: every accepted run of either capture endpoint - any capture
outcomes, any photo count, any exception or cancellation point -
terminates with `capture_in_progress = false` and
`streaming_active = true`. -/
theorem C2_state_restored (ok : Int → Bool) (n : Int) (exnAt : Option Int)
    (s : ServerState) (h : s.capture_in_progress = false) :
    (capture_sequence_stream ok n exnAt s).2.1
        = { streaming_active := true, capture_in_progress := false } ∧
    (capture_sequence ok exnAt s).2.1
        = { streaming_active := true, capture_in_progress := false } := by
  constructor
  · simp only [capture_sequence_stream, h, Bool.false_eq_true, if_false]
    rcases hq : seqSteps ok n exnAt (pyRange 1 (n + 1)) with ⟨evs, ps, att, f, r⟩
    simp [streamBody, hq]
  · simp only [capture_sequence, h, Bool.false_eq_true, if_false]
    rcases hq : legacySteps ok exnAt (pyRange 1 4) with ⟨ps, att, f, r⟩
    simp [legacyBody, hq]

/-- Witness for C2 on a fully successful three-shot run. -/
theorem C2_state_restored_witness :
    (capture_sequence_stream (fun _ => true) 3 none ⟨true, false⟩).2.1
        = { streaming_active := true, capture_in_progress := false } ∧
    (capture_sequence (fun _ => true) none ⟨true, false⟩).2.1
        = { streaming_active := true, capture_in_progress := false } :=
  C2_state_restored (fun _ => true) 3 none ⟨true, false⟩ rfl

/-- C3: for every photo count `n ≥ 1` and failing step `k` with
`1 ≤ k ≤ n` (all earlier steps succeeding), the accepted streaming run
emits the success pairs for steps `1..k-1`, then `"capturing"` and the
terminal error event naming step `k`, attempts exactly steps `1..k` and
none past `k`, never emits a `"complete"` event, and resets the flags so
streaming resumes. -/
theorem C3_stream_fails_at_step (ok : Int → Bool) (n k : Int) (s : ServerState)
    (h1 : 1 ≤ k) (h2 : k ≤ n) (hok : ∀ i, 1 ≤ i → i < k → ok i = true)
    (hk : ok k = false) (hs : s.capture_in_progress = false) :
    capture_sequence_stream ok n none s
      = (SSEEvent.starting :: SSEEvent.preparing ::
          (stepEvents n (pyRange 1 k)
            ++ [SSEEvent.capturing k n, SSEEvent.captureError k n]),
         { streaming_active := true, capture_in_progress := false },
         pyRange 1 (k + 1)) ∧
    ((capture_sequence_stream ok n none s).1.all (fun e => !(isCompleteEvent e)) = true) ∧
    (∀ j ∈ (capture_sequence_stream ok n none s).2.2, j ≤ k) := by
  have hsplit : pyRange 1 (n + 1) = pyRange 1 k ++ k :: pyRange (k + 1) (n + 1) := by
    rw [pyRange_split 1 k (n + 1) h1 (by omega), pyRange_cons k (n + 1) (by omega)]
  have hall : ∀ i ∈ pyRange 1 k, ok i = true := by
    intro i hi
    rw [mem_pyRange] at hi
    exact hok i hi.1 hi.2
  have hseq : seqSteps ok n none (pyRange 1 (n + 1))
      = (stepEvents n (pyRange 1 k) ++ [SSEEvent.capturing k n, SSEEvent.captureError k n],
         pyRange 1 k, pyRange 1 k ++ [k], true, false) := by
    rw [hsplit]
    exact seqSteps_fails ok n (pyRange 1 k) k _ hall hk
  have hatt : pyRange 1 k ++ [k] = pyRange 1 (k + 1) := by
    rw [pyRange_split 1 k (k + 1) h1 (by omega), pyRange_cons k (k + 1) (by omega),
      pyRange_eq_nil (k + 1) (k + 1) le_rfl]
  have hmain : capture_sequence_stream ok n none s
      = (SSEEvent.starting :: SSEEvent.preparing ::
          (stepEvents n (pyRange 1 k)
            ++ [SSEEvent.capturing k n, SSEEvent.captureError k n]),
         { streaming_active := true, capture_in_progress := false },
         pyRange 1 (k + 1)) := by
    simp only [capture_sequence_stream, hs, Bool.false_eq_true, if_false, streamBody, hseq]
    simp [hatt]
  refine ⟨hmain, ?_, ?_⟩
  · rw [hmain]
    simp only [List.all_cons, List.all_append, stepEvents_no_complete]
    rfl
  · rw [hmain]
    intro j hj
    rw [mem_pyRange] at hj
    omega

/-- Witness for C3: two configured photos with the first capture
failing. -/
theorem C3_stream_fails_witness :
    capture_sequence_stream (fun _ => false) 2 none ⟨true, false⟩
      = ([SSEEvent.starting, SSEEvent.preparing, SSEEvent.capturing 1 2,
          SSEEvent.captureError 1 2],
         { streaming_active := true, capture_in_progress := false }, [1]) := by
  have h := C3_stream_fails_at_step (fun _ => false) 2 1 ⟨true, false⟩ (by omega) (by omega)
    (by intro i hi1 hi2; omega) rfl rfl
  rw [h.1]
  decide

/-- C10: an accepted streaming run with a nonpositive configured photo
count attempts no captures and still emits `"starting"`, `"preparing"`
and a terminal `"complete"` event with an empty photo list, and resets
the flags on exit. -/
theorem C10_nonpositive_photo_count (ok : Int → Bool) (n : Int) (exnAt : Option Int)
    (s : ServerState) (hn : n ≤ 0) (hs : s.capture_in_progress = false) :
    capture_sequence_stream ok n exnAt s
      = ([SSEEvent.starting, SSEEvent.preparing, SSEEvent.complete []],
         { streaming_active := true, capture_in_progress := false }, []) := by
  have hr : pyRange 1 (n + 1) = [] := pyRange_eq_nil 1 (n + 1) (by omega)
  simp [capture_sequence_stream, hs, streamBody, hr, seqSteps]

/-- Witness for C10 at photo count zero. -/
theorem C10_nonpositive_photo_count_witness :
    capture_sequence_stream (fun _ => true) 0 none ⟨true, false⟩
      = ([SSEEvent.starting, SSEEvent.preparing, SSEEvent.complete []],
         { streaming_active := true, capture_in_progress := false }, []) :=
  C10_nonpositive_photo_count (fun _ => true) 0 none ⟨true, false⟩ (by omega) rfl

/- ----------------------------------------------------------------- -/
/- Helper lemmas: MJPEG frame extraction                              -/
/- ----------------------------------------------------------------- -/

/-- Appending `0xD9` to an accumulator ending in `0xFF` completes the
end-of-image check. -/
theorem isEOITail_append_true (fd : List Nat) (h : fd.getLast? = some 255) :
    isEOITail (fd ++ [217]) = true := by
  have hne : fd ≠ [] := by
    intro hc
    rw [hc] at h
    exact Option.noConfusion h
  have hlen : (fd ++ [217]).length ≥ 2 := by
    have := List.length_pos.mpr hne
    simp only [List.length_append, List.length_cons, List.length_nil]
    omega
  unfold isEOITail
  rw [List.getLast?_concat, List.dropLast_concat, h]
  simp [hlen]
  exact List.length_pos.mpr hne

/-- Appending any byte that does not complete an `FF D9` pair leaves the
end-of-image check false. -/
theorem isEOITail_append_false (fd : List Nat) (b : Nat)
    (hb : ¬(fd.getLast? = some 255 ∧ b = 217)) :
    isEOITail (fd ++ [b]) = false := by
  unfold isEOITail
  rw [List.getLast?_concat, List.dropLast_concat]
  by_cases h1 : b = 217
  · have h2 : ¬fd.getLast? = some 255 := fun hh => hb ⟨hh, h1⟩
    simp [h2]
  · simp [h1]

/-- Running the accumulation loop over a payload free of end-of-image
markers, followed by the `FF D9` trailer: the loop consumes the payload
and the trailer, yields the accumulated frame, and resumes scanning. -/
theorem inFrame_run (flags : Nat → Bool × Bool) (p : List Nat) :
    ∀ (fd : List Nat) (prev : Nat) (rest : List Nat) (i : Nat),
      fd ≠ [] → fd.getLast? = some prev → noEOIscan prev p = true →
      generate_mjpeg_stream flags (p ++ 255 :: 217 :: rest) (ScanMode.inFrame fd) i
        = (fd ++ (p ++ [255, 217])) :: generate_mjpeg_stream flags rest ScanMode.scanning (i + 1) := by
  induction p with
  | nil =>
    intro fd prev rest i hfd hlast hscan
    rw [List.nil_append]
    simp only [generate_mjpeg_stream]
    rw [isEOITail_append_false fd 255 (by rintro ⟨hc1, hc2⟩; omega)]
    simp only [Bool.false_eq_true, if_false, generate_mjpeg_stream]
    rw [isEOITail_append_true (fd ++ [255]) (List.getLast?_concat fd)]
    simp [List.append_assoc]
  | cons b p2 ih =>
    intro fd prev rest i hfd hlast hscan
    have hsc : ¬(prev = 255 ∧ b = 217) ∧ noEOIscan b p2 = true := by
      unfold noEOIscan at hscan
      rcases Bool.and_eq_true_iff.mp hscan with ⟨hl, hr⟩
      refine ⟨?_, hr⟩
      rintro ⟨hp1, hp2⟩
      subst hp1
      subst hp2
      simp at hl
    have hne : ¬(fd.getLast? = some 255 ∧ b = 217) := by
      rintro ⟨hg, hb⟩
      rw [hlast] at hg
      exact hsc.1 ⟨Option.some.inj hg, hb⟩
    rw [List.cons_append]
    simp only [generate_mjpeg_stream]
    rw [isEOITail_append_false fd b hne]
    simp only [Bool.false_eq_true, if_false]
    rw [ih (fd ++ [b]) b rest i (by simp) (List.getLast?_concat fd) hsc.2]
    simp [List.append_assoc]

/-- Extracting one complete frame: from scanning state with streaming
active, an `FF D8` chunk followed by a marker-free payload and the
`FF D9` trailer yields exactly that frame and returns to scanning. -/
theorem frame_extracted (flags : Nat → Bool × Bool) (p rest : List Nat) (i : Nat)
    (hp : noEOIscan 216 p = true) (hstream : (flags i).1 = true) :
    generate_mjpeg_stream flags (255 :: 216 :: (p ++ 255 :: 217 :: rest)) ScanMode.scanning i
      = (255 :: 216 :: (p ++ [255, 217]))
          :: generate_mjpeg_stream flags rest ScanMode.scanning (i + 1) := by
  simp only [generate_mjpeg_stream, hstream, Bool.true_eq_false, if_false]
  rw [if_pos (⟨trivial, trivial⟩ : True ∧ True)]
  rw [inFrame_run flags p [255, 216] 216 rest i (by simp) rfl hp]
  simp

/- ----------------------------------------------------------------- -/
/- C5 and C4: MJPEG extraction and pause-vs-terminate                 -/
/- ----------------------------------------------------------------- -/

/-- C5: with streaming active and no capture in progress, the byte
stream `FF D8 <p1> FF D9 FF D8 <p2> FF D9`, where the payloads contain
no end-of-image marker, yields exactly two frames, of lengths
`p1.length + 4` and `p2.length + 4`, in that order, each including both
of its markers. -/
theorem C5_two_frames (p1 p2 : List Nat)
    (h1 : noEOIscan 216 p1 = true) (h2 : noEOIscan 216 p2 = true) :
    generate_mjpeg_stream (fun _ => (true, false))
        (255 :: 216 :: (p1 ++ 255 :: 217 :: (255 :: 216 :: (p2 ++ 255 :: 217 :: []))))
        ScanMode.scanning 0
      = [255 :: 216 :: (p1 ++ [255, 217]), 255 :: 216 :: (p2 ++ [255, 217])] ∧
    (255 :: 216 :: (p1 ++ [255, 217])).length = p1.length + 4 ∧
    (255 :: 216 :: (p2 ++ [255, 217])).length = p2.length + 4 := by
  refine ⟨?_, ?_, ?_⟩
  · rw [frame_extracted _ p1 _ 0 h1 rfl]
    rw [frame_extracted _ p2 _ 1 h2 rfl]
    simp [generate_mjpeg_stream]
  · simp only [List.length_cons, List.length_append, List.length_nil]
  · simp only [List.length_cons, List.length_append, List.length_nil]

/-- Witness for C5 with a 3-byte and a 1-byte payload. -/
theorem C5_two_frames_witness :
    generate_mjpeg_stream (fun _ => (true, false))
        (255 :: 216 :: ([1, 2, 3] ++ 255 :: 217 :: (255 :: 216 :: ([7] ++ 255 :: 217 :: []))))
        ScanMode.scanning 0
      = [255 :: 216 :: ([1, 2, 3] ++ [255, 217]), 255 :: 216 :: ([7] ++ [255, 217])] ∧
    (255 :: 216 :: (([1, 2, 3] : List Nat) ++ [255, 217])).length = ([1, 2, 3] : List Nat).length + 4 ∧
    (255 :: 216 :: (([7] : List Nat) ++ [255, 217])).length = ([7] : List Nat).length + 4 :=
  C5_two_frames [1, 2, 3] [7] (by decide) (by decide)

/-- C4 fails as stated: with the byte stream holding two complete frames
and a schedule on which capture begins at iteration 1 (clearing
`streaming_active`, as both capture endpoints do) and ends before
iteration 2, the generator emits only the first frame and terminates -
it never resumes and never emits the second frame - whereas the same
stream under an undisturbed schedule yields both frames. -/
theorem C4_counterexample :
    generate_mjpeg_stream
        (fun i => if i = 0 then (true, false) else if i = 1 then (false, true) else (true, false))
        [255, 216, 255, 217, 255, 216, 255, 217] ScanMode.scanning 0
      = [[255, 216, 255, 217]] ∧
    generate_mjpeg_stream (fun _ => (true, false))
        [255, 216, 255, 217, 255, 216, 255, 217] ScanMode.scanning 0
      = [[255, 216, 255, 217], [255, 216, 255, 217]] := by
  constructor
  · decide
  · decide

/-- C4 amended: beginning a capture clears `streaming_active`, and as
soon as the loop condition of the generator observes
`streaming_active = false` the generator terminates, yielding no further
frames regardless of the remaining byte stream or of any later flag
values; streaming resumes only through a fresh generator instance. -/
theorem C4_terminates_on_capture (flags : Nat → Bool × Bool) (stdout : List Nat)
    (i : Nat) (h : (flags i).1 = false) :
    generate_mjpeg_stream flags stdout ScanMode.scanning i = [] := by
  cases stdout with
  | nil => simp [generate_mjpeg_stream, h]
  | cons b rest =>
    cases rest with
    | nil => simp [generate_mjpeg_stream, h]
    | cons b2 rest2 => simp [generate_mjpeg_stream, h]

/-- Witness for the amended C4: capture begins at iteration 1 with a
full frame still unread. -/
theorem C4_terminates_witness :
    generate_mjpeg_stream (fun i => if i = 0 then (true, false) else (false, true))
        [255, 216, 255, 217] ScanMode.scanning 1 = [] :=
  C4_terminates_on_capture (fun i => if i = 0 then (true, false) else (false, true))
    [255, 216, 255, 217] 1 (by decide)

/- ----------------------------------------------------------------- -/
/- Helper lemmas and C9: ROI pixel counting and silent clamping       -/
/- ----------------------------------------------------------------- -/

/-- A Python slice with nonnegative bounds equals the slice whose bounds
are pre-clamped to the list length: out-of-range bounds are silently
normalized. -/
theorem pySlice_clamp {α : Type} (start stop : Int) (l : List α)
    (h1 : 0 ≤ start) (h2 : 0 ≤ stop) :
    pySlice start stop l
      = pySlice (min start (l.length : Int)) (min stop (l.length : Int)) l := by
  have hn : (0 : Int) ≤ (l.length : Int) := Int.natCast_nonneg _
  simp only [pySlice]
  rw [if_neg (by omega), if_neg (by omega), if_neg (by omega), if_neg (by omega)]
  rw [min_assoc, min_self, min_assoc, min_self]

/-- Rows of a Python slice are rows of the original list. -/
theorem mem_of_mem_pySlice {α : Type} {x : α} {start stop : Int} {l : List α}
    (h : x ∈ pySlice start stop l) : x ∈ l := by
  simp only [pySlice] at h
  exact List.mem_of_mem_take (List.mem_of_mem_drop h)

/-- C9 amended: `_count_pixels_in_roi` silently clamps: for every
rectangular mask and every ROI with nonnegative coordinates and extent,
the returned count equals the count over the ROI clipped to the mask
bounds - which lies fully inside the mask - and no violation of the
containment invariant is reported. -/
theorem C9_out_of_bounds_roi_clamped (mask : List (List Bool)) (W : Nat) (roi : ROI)
    (hrect : ∀ row ∈ mask, row.length = W)
    (hx : 0 ≤ roi.x) (hy : 0 ≤ roi.y) (hw : 0 ≤ roi.width) (hh : 0 ≤ roi.height) :
    count_pixels_in_roi mask roi
      = count_pixels_in_roi mask (clampROI W mask.length roi) ∧
    roiInBounds W mask.length (clampROI W mask.length roi) = true := by
  constructor
  · simp only [count_pixels_in_roi, clampROI]
    have hy2 : min roi.y ((mask.length : Int))
        + (min (roi.y + roi.height) ((mask.length : Int)) - min roi.y ((mask.length : Int)))
        = min (roi.y + roi.height) ((mask.length : Int)) := by ring
    rw [hy2, pySlice_clamp roi.y (roi.y + roi.height) mask hy (by omega)]
    congr 1
    apply List.map_congr_left
    intro row hrow
    have hrowW : (row.length : Int) = (W : Int) := by
      rw [hrect row (mem_of_mem_pySlice hrow)]
    rw [pySlice_clamp roi.x (roi.x + roi.width) row hx (by omega), hrowW]
    congr 1
    ring
  · simp only [roiInBounds, clampROI, Bool.and_eq_true, decide_eq_true_eq]
    have hW0 : (0 : Int) ≤ (W : Int) := Int.natCast_nonneg _
    have hH0 : (0 : Int) ≤ ((mask.length : Nat) : Int) := Int.natCast_nonneg _
    refine ⟨⟨⟨⟨⟨?_, ?_⟩, ?_⟩, ?_⟩, ?_⟩, ?_⟩ <;> omega

/-- Witness for the amended C9: a 2x2 mask with an ROI reaching past
both edges. -/
theorem C9_out_of_bounds_roi_clamped_witness :
    count_pixels_in_roi [[true, true], [true, true]] ⟨1, 0, 5, 9⟩
      = count_pixels_in_roi [[true, true], [true, true]]
          (clampROI 2 ([[true, true], [true, true]] : List (List Bool)).length ⟨1, 0, 5, 9⟩) ∧
    roiInBounds 2 ([[true, true], [true, true]] : List (List Bool)).length
      (clampROI 2 ([[true, true], [true, true]] : List (List Bool)).length ⟨1, 0, 5, 9⟩) = true :=
  C9_out_of_bounds_roi_clamped [[true, true], [true, true]] 2 ⟨1, 0, 5, 9⟩
    (by decide) (by decide) (by decide) (by decide) (by decide)

/-- C9 fails as stated: counting pixels for the ROI `{0, 0, 5, 5}` on an
all-true 2x2 mask raises no error and silently returns 4 - exactly the
count over the clipped region `{0, 0, 2, 2}` - even though the ROI
extends beyond the mask bounds. -/
theorem C9_counterexample :
    roiInBounds 2 2 ⟨0, 0, 5, 5⟩ = false ∧
    count_pixels_in_roi [[true, true], [true, true]] ⟨0, 0, 5, 5⟩
      = count_pixels_in_roi [[true, true], [true, true]] ⟨0, 0, 2, 2⟩ ∧
    count_pixels_in_roi [[true, true], [true, true]] ⟨0, 0, 5, 5⟩ = 4 := by
  refine ⟨by decide, by decide, by decide⟩
